import Mathlib

/-!
Verification development for the client-side grading-workflow orchestrator
(EvalMate).  The definitions below are shallow embeddings of the JavaScript
source: React state updates become pure functions on an `AppState` record,
network calls become entries of an `ApiCall` trace driven by an oracle for
the server's responses, and the activity log / notifications become lists.

Two variants of the home page exist in the source:
* `Page`       — `next_js/src/app/page.js` (no upload queue);
* `QueuedPage` — the second `HomePage` in the bundled source (upload queue,
  chat modal, combined build+evaluate orchestrator).
-/

/-- Kind of an activity-log entry: `addMessage(text, "user")` vs the default
`"assistant"` origin. -/
inductive MsgKind
  | user
  | assistant
deriving DecidableEq, Repr

/-- One activity-log entry (the `messages` array of `useAppState`). -/
structure Message where
  kind : MsgKind
  text : String
deriving DecidableEq, Repr

/-- Colors used by `notifications.show` in the source. -/
inductive NoteColor
  | green
  | red
  | orange
  | blue
deriving DecidableEq, Repr

/-- One transient notification (`notifications.show({title, message, color})`). -/
structure Note where
  title : String
  message : String
  color : NoteColor
deriving DecidableEq, Repr

/-- `LOADING_STATES` from `lib/constants.js`. -/
inductive LoadingState
  | idle
  | uploading
  | building
  | evaluating
deriving DecidableEq, Repr

/-- A rubric as used by the client: opaque id plus display metadata
(`rubric.assignment`, `rubric.items.length`). -/
structure Rubric where
  id : Nat
  assignment : String
  itemCount : Nat
deriving DecidableEq, Repr

/-- A question resource (`question.id`, `question.title`). -/
structure Question where
  id : Nat
  title : String
deriving DecidableEq, Repr

/-- A submission resource (`submission.id`, `submission.student_handle`). -/
structure Submission where
  id : Nat
  student_handle : String
deriving DecidableEq, Repr

/-- The evaluation context ("fusion") returned by `POST /fusion/build`.
Per the server contract it is derived from exactly the three ids sent in the
request; the client also reads `token_estimate` and `visual_count`. -/
structure Fusion where
  rubric_id : Nat
  question_id : Nat
  submission_id : Nat
  token_estimate : Nat
  visual_count : Nat
deriving DecidableEq, Repr

/-- One per-item score inside an evaluation result. -/
structure ItemScore where
  criterion : String
  score : ℚ
deriving DecidableEq, Repr

/-- The `result` payload of an evaluate response.  `total` is optional because
the narrative variant omits it (`result.total?.toFixed(1) || "N/A"`). -/
structure EvalResultPayload where
  total : Option ℚ
  items : List ItemScore
  overall_feedback : Option String
  narrative_evaluation : Option String
  narrative_strengths : Option String
deriving DecidableEq, Repr

/-- The full evaluate response body used by the queued-variant orchestrator:
`{ eval_id, result }`. -/
structure EvalResponse where
  eval_id : Option Nat
  result : EvalResultPayload
deriving DecidableEq, Repr

/-- Progress state stored by `setProgress` (`{type, value, label, target}`). -/
structure ProgressState where
  kind : String
  value : ℚ
  label : String
  target : Option String
deriving DecidableEq, Repr

/-- The single app-wide state of `useAppState`, plus the `evalId` field the
queued variant adds on evaluation success. -/
structure AppState where
  selectedRubric : Option Rubric
  selectedQuestion : Option Question
  selectedSubmission : Option Submission
  fusion : Option Fusion
  result : Option EvalResultPayload
  evalId : Option Nat
  messages : List Message
  loading : LoadingState
  progress : Option ProgressState
deriving DecidableEq, Repr

/-- Initial `useAppState` value: everything absent, log empty, loading idle. -/
def initialAppState : AppState :=
  { selectedRubric := none
    selectedQuestion := none
    selectedSubmission := none
    fusion := none
    result := none
    evalId := none
    messages := []
    loading := .idle
    progress := none }

/-- Network calls issued by the client, recorded as a trace. -/
inductive ApiCall
  | uploadRubric (file : String)
  | getRubric (id : Nat)
  | uploadQuestion (rubric_id : Nat) (file : String)
  | getQuestion (id : Nat)
  | uploadSubmission (rubric_id question_id : Nat) (file : String)
  | getSubmission (id : Nat)
  | buildFusion (rubric_id question_id submission_id : Nat)
  | evaluate (rubric_id question_id submission_id : Nat)
deriving DecidableEq, Repr

/-- Result of running one handler atomically: the next state, the network
calls it issued (in order), and the notifications it showed. -/
structure HandlerOutput where
  state : AppState
  calls : List ApiCall
  notes : List Note
deriving DecidableEq, Repr

/-- Append one activity-log entry, as `addMessage` does. -/
def addMsg (st : AppState) (k : MsgKind) (text : String) : AppState :=
  { st with messages := st.messages ++ [{ kind := k, text := text }] }

namespace Page

/-- `handleRubricSelect` state transition (page.js lines 322-339): installs
the rubric and clears question, submission, fusion and result in the same
`setState` call. -/
def rubricSelectT (rubric : Rubric) (prev : AppState) : AppState :=
  { prev with
    selectedRubric := some rubric
    selectedQuestion := none
    selectedSubmission := none
    fusion := none
    result := none }

/-- `handleQuestionSelect` state transition (page.js lines 341-353). -/
def questionSelectT (question : Question) (prev : AppState) : AppState :=
  { prev with
    selectedQuestion := some question
    selectedSubmission := none
    fusion := none
    result := none }

/-- `handleSubmissionSelect` state transition (page.js lines 355-366). -/
def submissionSelectT (submission : Submission) (prev : AppState) : AppState :=
  { prev with
    selectedSubmission := some submission
    fusion := none
    result := none }

/-- Success `setState` of `handleRubricUpload` (page.js lines 88-95): installs
the fetched rubric and clears the four downstream fields in one transition. -/
def rubricUploadSuccessT (rubric : Rubric) (prev : AppState) : AppState :=
  { prev with
    selectedRubric := some rubric
    selectedQuestion := none
    selectedSubmission := none
    fusion := none
    result := none }

end Page

namespace QueuedPage

/-- `handleRubricSelect` state transition (queued variant): same full clear as
the non-queued page. -/
def rubricSelectT (rubric : Rubric) (prev : AppState) : AppState :=
  { prev with
    selectedRubric := some rubric
    selectedQuestion := none
    selectedSubmission := none
    fusion := none
    result := none }

/-- `handleQuestionSelect` state transition (queued variant). -/
def questionSelectT (question : Question) (prev : AppState) : AppState :=
  { prev with
    selectedQuestion := some question
    selectedSubmission := none
    fusion := none
    result := none }

/-- `handleSubmissionSelect` state transition (queued variant). -/
def submissionSelectT (submission : Submission) (prev : AppState) : AppState :=
  { prev with
    selectedSubmission := some submission
    fusion := none
    result := none }

/-- Success `setState` of the queued variant's `handleRubricUpload` handler:
`{...prev, selectedRubric: rubric, fusion: null, result: null}`.  Note that
unlike `handleRubricSelect` it does NOT touch `selectedQuestion` or
`selectedSubmission`. -/
def rubricUploadSuccessT (rubric : Rubric) (prev : AppState) : AppState :=
  { prev with
    selectedRubric := some rubric
    fusion := none
    result := none }

/-- Success `setState` of the queued variant's question-upload handler. -/
def questionUploadSuccessT (question : Question) (prev : AppState) : AppState :=
  { prev with
    selectedQuestion := some question
    fusion := none
    result := none }

/-- Success `setState` of the queued variant's submission-upload handler. -/
def submissionUploadSuccessT (submission : Submission) (prev : AppState) : AppState :=
  { prev with
    selectedSubmission := some submission
    fusion := none
    result := none }

/-- `handleNewEvaluation` reset (queued variant). -/
def newEvaluationT (prev : AppState) : AppState :=
  { prev with
    selectedRubric := none
    selectedQuestion := none
    selectedSubmission := none
    fusion := none
    result := none
    evalId := none
    messages := []
    loading := .idle
    progress := none }

end QueuedPage

namespace QueuedPage

/-- Kind of a queued upload task. -/
inductive TaskKind
  | rubric
  | question
  | submission
deriving DecidableEq, Repr

/-- One entry of the `uploadQueue` React state. -/
structure UploadTask where
  kind : TaskKind
  file : String
deriving DecidableEq, Repr

/-- Enqueue of `handleRubricUpload`: `setUploadQueue(prev => [task])`.
Note the updater builds a fresh one-element array and does not spread `prev`. -/
def enqueueRubric (_prev : List UploadTask) (t : UploadTask) : List UploadTask :=
  [t]

/-- Enqueue of `handleQuestionUpload`: `setUploadQueue(prev => [...prev, task])`. -/
def enqueueQuestion (prev : List UploadTask) (t : UploadTask) : List UploadTask :=
  prev ++ [t]

/-- Enqueue of `handleSubmissionUpload`: `setUploadQueue(prev => [...prev, task])`. -/
def enqueueSubmission (prev : List UploadTask) (t : UploadTask) : List UploadTask :=
  prev ++ [t]

/-- Observable events of one run of the queue processor, in order. -/
inductive QueueEvent
  | started (t : UploadTask)
  | call (c : ApiCall)
  | settled (t : UploadTask)
  | warned (text : String)
deriving DecidableEq, Repr

/-- The prerequisite check `processUploadQueue` performs before dispatching a
task, against the state snapshot captured by the callback closure:
question tasks need `state.selectedRubric`, submission tasks need both the
rubric and the question; rubric tasks have no prerequisite. -/
def dispatchAllowed (st : AppState) : TaskKind → Bool
  | .rubric => true
  | .question => st.selectedRubric.isSome
  | .submission => st.selectedRubric.isSome && st.selectedQuestion.isSome

/-- Events produced for one dequeued task: if its prerequisite check passes,
its handler runs to settlement (issuing its network calls, abstracted by
`handlerCalls`); otherwise the task is skipped entirely — the source's
`for` loop simply does not call the handler, emits no warning, and the task
is removed from the queue. -/
def taskTrace (handlerCalls : UploadTask → List ApiCall) (st : AppState)
    (t : UploadTask) : List QueueEvent :=
  if dispatchAllowed st t.kind then
    QueueEvent.started t :: (handlerCalls t).map QueueEvent.call
      ++ [QueueEvent.settled t]
  else []

/-- One invocation of `processUploadQueue`: returns immediately when a run is
already in progress (`isProcessingQueue`) or the queue is empty, else awaits
each task's handler in queue order (`for (const uploadItem of queue) ...
await handler(...)`). -/
def processUploadQueue (handlerCalls : UploadTask → List ApiCall)
    (isProcessingQueue : Bool) (st : AppState)
    (queue : List UploadTask) : List QueueEvent :=
  if isProcessingQueue || queue.isEmpty then []
  else queue.flatMap (taskTrace handlerCalls st)

/-- Is this event the start of a handler run? -/
def isStarted : QueueEvent → Bool
  | .started _ => true
  | _ => false

/-- Is this event the settlement of a handler run? -/
def isSettled : QueueEvent → Bool
  | .settled _ => true
  | _ => false

/-- Is this event a locally surfaced warning? -/
def isWarned : QueueEvent → Bool
  | .warned _ => true
  | _ => false

/-- Is this event a network call? -/
def isCall : QueueEvent → Bool
  | .call _ => true
  | _ => false

/-- The tasks whose handlers were started, in start order. -/
def startedTasks : List QueueEvent → List UploadTask
  | [] => []
  | .started t :: es => t :: startedTasks es
  | _ :: es => startedTasks es

/-- A trace is serial when, at every point, at most one handler is in flight
and a handler only starts once every earlier handler has settled. -/
def SerialTrace (tr : List QueueEvent) : Prop :=
  ∀ a b : List QueueEvent, tr = a ++ b →
    a.countP isSettled ≤ a.countP isStarted ∧
    a.countP isStarted ≤ a.countP isSettled + 1 ∧
    ∀ t c, b = QueueEvent.started t :: c →
      a.countP isStarted = a.countP isSettled

end QueuedPage

/-- A concrete rubric used in concrete evaluations. -/
def rubricR1 : Rubric :=
  { id := 1, assignment := "A1", itemCount := 3 }

/-- A second concrete rubric. -/
def rubricR2 : Rubric :=
  { id := 2, assignment := "A2", itemCount := 4 }

/-- A concrete question belonging to `rubricR1`. -/
def questionQ1 : Question :=
  { id := 11, title := "Q1" }

/-- A concrete submission. -/
def submissionS1 : Submission :=
  { id := 21, student_handle := "alice" }

/-- A state with `R1`, `Q1` and `S1` all selected. -/
def stR1Q1S1 : AppState :=
  { initialAppState with
    selectedRubric := some rubricR1
    selectedQuestion := some questionQ1
    selectedSubmission := some submissionS1 }

/-- C1 counterexample: uploading (installing) a new rubric `R2` through the
queued variant's rubric-upload handler, while question `Q1` and submission
`S1` from rubric `R1` are selected, leaves the stale question and submission
visible alongside the new rubric in the resulting state — the claimed
atomic clearing of question and submission does not happen for this
rubric-installing transition. -/
theorem queued_rubric_upload_keeps_stale_children :
    (QueuedPage.rubricUploadSuccessT rubricR2 stR1Q1S1).selectedRubric
        = some rubricR2 ∧
    (QueuedPage.rubricUploadSuccessT rubricR2 stR1Q1S1).selectedQuestion
        = some questionQ1 ∧
    (QueuedPage.rubricUploadSuccessT rubricR2 stR1Q1S1).selectedSubmission
        = some submissionS1 := by
  refine ⟨rfl, rfl, rfl⟩

/-- C1 (amended): every rubric-*selection* transition (both variants), and the
non-queued rubric-upload transition, atomically set question, submission,
fusion and result to absent in the same transition as installing the new
rubric; the queued variant's rubric-upload transition clears only fusion and
result in that transition, leaving the previously selected question and
submission in place. -/
theorem rubric_transitions_clear_downstream (r : Rubric) (st : AppState) :
    ((Page.rubricSelectT r st).selectedRubric = some r ∧
      (Page.rubricSelectT r st).selectedQuestion = none ∧
      (Page.rubricSelectT r st).selectedSubmission = none ∧
      (Page.rubricSelectT r st).fusion = none ∧
      (Page.rubricSelectT r st).result = none) ∧
    ((Page.rubricUploadSuccessT r st).selectedRubric = some r ∧
      (Page.rubricUploadSuccessT r st).selectedQuestion = none ∧
      (Page.rubricUploadSuccessT r st).selectedSubmission = none ∧
      (Page.rubricUploadSuccessT r st).fusion = none ∧
      (Page.rubricUploadSuccessT r st).result = none) ∧
    ((QueuedPage.rubricSelectT r st).selectedRubric = some r ∧
      (QueuedPage.rubricSelectT r st).selectedQuestion = none ∧
      (QueuedPage.rubricSelectT r st).selectedSubmission = none ∧
      (QueuedPage.rubricSelectT r st).fusion = none ∧
      (QueuedPage.rubricSelectT r st).result = none) ∧
    ((QueuedPage.rubricUploadSuccessT r st).selectedRubric = some r ∧
      (QueuedPage.rubricUploadSuccessT r st).fusion = none ∧
      (QueuedPage.rubricUploadSuccessT r st).result = none ∧
      (QueuedPage.rubricUploadSuccessT r st).selectedQuestion
          = st.selectedQuestion ∧
      (QueuedPage.rubricUploadSuccessT r st).selectedSubmission
          = st.selectedSubmission) := by
  refine ⟨⟨rfl, rfl, rfl, rfl, rfl⟩, ⟨rfl, rfl, rfl, rfl, rfl⟩,
    ⟨rfl, rfl, rfl, rfl, rfl⟩, ⟨rfl, rfl, rfl, rfl, rfl⟩⟩

namespace QueuedPage

/-- Helper: a predicate that rejects network-call events counts zero on a
block of mapped calls. -/
theorem countP_map_call (p : QueueEvent → Bool)
    (hp : ∀ c, p (QueueEvent.call c) = false) (cs : List ApiCall) :
    (cs.map QueueEvent.call).countP p = 0 := by
  induction cs with
  | nil => rfl
  | cons c cs ih => simp [List.countP_cons, hp, ih]

/-- The empty trace is serial. -/
theorem serialTrace_nil : SerialTrace [] := by
  intro a b heq
  obtain ⟨ha, hb⟩ := List.append_eq_nil.mp heq.symm
  subst ha; subst hb
  refine ⟨by simp, by simp, ?_⟩
  intro t c hb
  exact absurd hb (by simp)

/-- Prepending one full handler block (start, its calls, settle) to a serial
trace keeps the trace serial. -/
theorem serialTrace_block (t : UploadTask) (cs : List ApiCall)
    (rest : List QueueEvent) (hrest : SerialTrace rest) :
    SerialTrace (QueueEvent.started t ::
      (cs.map QueueEvent.call ++ (QueueEvent.settled t :: rest))) := by
  intro a b heq
  cases a with
  | nil =>
    refine ⟨by simp, by simp, ?_⟩
    intro t' c hb
    simp
  | cons e a' =>
    rw [List.cons_append] at heq
    have he : QueueEvent.started t = e := by
      have := (List.cons.injEq _ _ _ _).mp heq
      exact this.1
    have htail : cs.map QueueEvent.call ++ (QueueEvent.settled t :: rest)
        = a' ++ b := by
      have := (List.cons.injEq _ _ _ _).mp heq
      exact this.2
    subst he
    have hcalls : ∀ p : QueueEvent → Bool,
        (∀ c, p (QueueEvent.call c) = false) →
        (cs.map QueueEvent.call).countP p = 0 := fun p hp => countP_map_call p hp cs
    rcases List.append_eq_append_iff.mp htail with ⟨w, ha', hw⟩ | ⟨w, hmc, hbw⟩
    · -- a' = cs.map call ++ w and settled :: rest = w ++ b
      cases w with
      | nil =>
        simp only [List.append_nil] at ha' hw
        subst ha'
        have hb : b = QueueEvent.settled t :: rest := by simpa using hw.symm
        constructor
        · simp [List.countP_cons, isStarted, isSettled,
            hcalls isStarted (fun _ => rfl), hcalls isSettled (fun _ => rfl)]
        constructor
        · simp [List.countP_cons, isStarted, isSettled,
            hcalls isStarted (fun _ => rfl), hcalls isSettled (fun _ => rfl)]
        · intro t' c hbc
          rw [hb] at hbc
          exact absurd ((List.cons.injEq _ _ _ _).mp hbc).1 (by simp)
      | cons e' w' =>
        have he' : QueueEvent.settled t = e' := ((List.cons.injEq _ _ _ _).mp hw).1
        have hrw : rest = w' ++ b := ((List.cons.injEq _ _ _ _).mp hw).2
        subst he'
        subst ha'
        obtain ⟨h1, h2, h3⟩ := hrest w' b hrw
        constructor
        · simp [List.countP_append, List.countP_cons, isStarted, isSettled,
            hcalls isStarted (fun _ => rfl), hcalls isSettled (fun _ => rfl)]
          omega
        constructor
        · simp [List.countP_append, List.countP_cons, isStarted, isSettled,
            hcalls isStarted (fun _ => rfl), hcalls isSettled (fun _ => rfl)]
          omega
        · intro t' c hbc
          have := h3 t' c hbc
          simp [List.countP_append, List.countP_cons, isStarted, isSettled,
            hcalls isStarted (fun _ => rfl), hcalls isSettled (fun _ => rfl)]
          omega
    · -- cs.map call = a' ++ w and b = w ++ settled :: rest
      have hcount : ∀ p : QueueEvent → Bool,
          (∀ c, p (QueueEvent.call c) = false) → a'.countP p = 0 := by
        intro p hp
        have h0 : (a' ++ w).countP p = 0 := by
          rw [← hmc]; exact hcalls p hp
        rw [List.countP_append] at h0
        omega
      constructor
      · simp [List.countP_cons, isStarted, isSettled,
          hcount isStarted (fun _ => rfl), hcount isSettled (fun _ => rfl)]
      constructor
      · simp [List.countP_cons, isStarted, isSettled,
          hcount isStarted (fun _ => rfl), hcount isSettled (fun _ => rfl)]
      · intro t' c hbc
        rw [hbw] at hbc
        cases w with
        | nil =>
          exact absurd ((List.cons.injEq _ _ _ _).mp hbc).1.symm (by simp)
        | cons e' w'' =>
          have he'mem : e' ∈ cs.map QueueEvent.call := by
            rw [hmc]
            exact List.mem_append.mpr (Or.inr (List.mem_cons_self _ _))
          obtain ⟨c0, _, hc0⟩ := List.mem_map.mp he'mem
          have : QueueEvent.started t' = e' :=
            ((List.cons.injEq _ _ _ _).mp hbc).1.symm
          rw [← hc0] at this
          exact absurd this (by simp)

/-- Dropped or dispatched, each queued task contributes a serial block, so
the whole processing run is serial. -/
theorem serialTrace_flatMap (handlerCalls : UploadTask → List ApiCall)
    (st : AppState) (queue : List UploadTask) :
    SerialTrace (queue.flatMap (taskTrace handlerCalls st)) := by
  induction queue with
  | nil => exact serialTrace_nil
  | cons t ts ih =>
    rw [List.flatMap_cons]
    unfold taskTrace
    by_cases h : dispatchAllowed st t.kind = true
    · simp only [h, if_true]
      have := serialTrace_block t (handlerCalls t)
        (ts.flatMap (taskTrace handlerCalls st)) ih
      simpa using this
    · simp only [Bool.not_eq_true] at h
      simp only [h]
      simpa using ih

/-- Unfolding `taskTrace` when the prerequisite check passes. -/
theorem taskTrace_pos (handlerCalls : UploadTask → List ApiCall)
    (st : AppState) (t : UploadTask) (h : dispatchAllowed st t.kind = true) :
    taskTrace handlerCalls st t
      = QueueEvent.started t ::
          ((handlerCalls t).map QueueEvent.call ++ [QueueEvent.settled t]) := by
  simp [taskTrace, h]

/-- Unfolding `taskTrace` when the prerequisite check fails: the task is
skipped with no events at all. -/
theorem taskTrace_neg (handlerCalls : UploadTask → List ApiCall)
    (st : AppState) (t : UploadTask) (h : dispatchAllowed st t.kind = false) :
    taskTrace handlerCalls st t = [] := by
  simp [taskTrace, h]

/-- `startedTasks` distributes over append. -/
theorem startedTasks_append (a b : List QueueEvent) :
    startedTasks (a ++ b) = startedTasks a ++ startedTasks b := by
  induction a with
  | nil => rfl
  | cons e a ih =>
    cases e <;> simp [startedTasks, ih]

/-- No handler start hides inside a block of mapped network calls. -/
theorem startedTasks_map_call (cs : List ApiCall) :
    startedTasks (cs.map QueueEvent.call) = [] := by
  induction cs with
  | nil => rfl
  | cons c cs ih => simp [startedTasks, ih]

/-- The handlers started by one processing run are exactly the tasks that
pass their prerequisite check, in queue (FIFO) order. -/
theorem startedTasks_flatMap (handlerCalls : UploadTask → List ApiCall)
    (st : AppState) (queue : List UploadTask) :
    startedTasks (queue.flatMap (taskTrace handlerCalls st))
      = queue.filter (fun t => dispatchAllowed st t.kind) := by
  induction queue with
  | nil => rfl
  | cons t ts ih =>
    rw [List.flatMap_cons, startedTasks_append, List.filter_cons]
    by_cases h : dispatchAllowed st t.kind = true
    · rw [taskTrace_pos handlerCalls st t h]
      simp [h, startedTasks, startedTasks_append, startedTasks_map_call, ih]
    · simp only [Bool.not_eq_true] at h
      rw [taskTrace_neg handlerCalls st t h]
      simp [h, startedTasks, ih]

end QueuedPage

/-- A concrete pending question task. -/
def taskQ : QueuedPage.UploadTask :=
  { kind := .question, file := "q.pdf" }

/-- A concrete rubric task. -/
def taskR : QueuedPage.UploadTask :=
  { kind := .rubric, file := "r.pdf" }

/-- C6 counterexample: enqueueing a rubric task while a question task is
already pending does not append — `handleRubricUpload`'s updater returns a
fresh one-element array, so the pending question task is discarded instead
of being preserved ahead of the new task. -/
theorem enqueue_rubric_discards_pending :
    QueuedPage.enqueueRubric [taskQ] taskR ≠ [taskQ] ++ [taskR] ∧
    QueuedPage.enqueueRubric [taskQ] taskR = [taskR] := by
  refine ⟨by decide, rfl⟩

/-- C6 (amended): question and submission enqueues append the new task at the
end, preserving all earlier pending tasks, and the rubric enqueue instead
replaces the whole queue with just the rubric task; the single processing
loop is re-entrancy guarded, runs handlers serially (at most one in flight,
a handler starts only after every earlier handler settled), and starts the
dispatched handlers exactly in queue (FIFO) order. -/
theorem upload_queue_enqueue_and_fifo
    (prev : List QueuedPage.UploadTask) (t : QueuedPage.UploadTask)
    (handlerCalls : QueuedPage.UploadTask → List ApiCall)
    (st : AppState) (queue : List QueuedPage.UploadTask) :
    QueuedPage.enqueueQuestion prev t = prev ++ [t] ∧
    QueuedPage.enqueueSubmission prev t = prev ++ [t] ∧
    QueuedPage.enqueueRubric prev t = [t] ∧
    QueuedPage.processUploadQueue handlerCalls true st queue = [] ∧
    QueuedPage.SerialTrace
      (QueuedPage.processUploadQueue handlerCalls false st queue) ∧
    QueuedPage.startedTasks
        (QueuedPage.processUploadQueue handlerCalls false st queue)
      = queue.filter (fun t => QueuedPage.dispatchAllowed st t.kind) := by
  refine ⟨rfl, rfl, rfl, rfl, ?_, ?_⟩
  · unfold QueuedPage.processUploadQueue
    by_cases h : queue.isEmpty
    · simp [h, QueuedPage.serialTrace_nil]
    · simp only [Bool.false_or, h, if_false]
      exact QueuedPage.serialTrace_flatMap handlerCalls st queue
  · unfold QueuedPage.processUploadQueue
    by_cases h : queue.isEmpty
    · have : queue = [] := by
        cases queue with
        | nil => rfl
        | cons a b => simp [List.isEmpty] at h
      simp [h, this, QueuedPage.startedTasks]
    · simp only [Bool.false_or, h, if_false]
      exact QueuedPage.startedTasks_flatMap handlerCalls st queue

/-- JS `error.message || fallback`: an empty message falls back. -/
def errMsgOr (e fallback : String) : String :=
  if e = "" then fallback else e

/-- Server oracle for one question upload: the outcome of
`POST /questions/upload` (the created id) and of `GET /questions/{id}`. -/
structure QuestionUploadOracle where
  uploadRes : Except String Nat
  getRes : Except String Question
deriving Repr

namespace Page

/-- `handleQuestionUpload` (page.js lines 124-218), run atomically.  With no
rubric selected it adds one local warning message, shows one warning
notification and returns before any network call.  Otherwise it uploads,
fetches the created question, installs it (clearing submission, fusion and
result), and converts any failure into one error message plus one error
notification.  Intermediate `setProgress` values are overwritten before the
handler returns; the final state has `progress` cleared. -/
def handleQuestionUpload (o : QuestionUploadOracle) (file title : String)
    (st : AppState) : HandlerOutput :=
  match st.selectedRubric with
  | none =>
      { state := addMsg st .assistant "❌ Please select a rubric first"
        calls := []
        notes := [{ title := "Warning"
                    message := "Please select a rubric first"
                    color := .orange }] }
  | some rubric =>
      let st0 := addMsg { st with loading := .uploading } .user
        ("Uploading question: " ++ file)
      match o.uploadRes with
      | .error e =>
          let msg := errMsgOr e "Failed to upload question"
          { state := { addMsg st0 .assistant ("❌ " ++ msg) with
                       progress := none, loading := .idle }
            calls := [.uploadQuestion rubric.id file]
            notes := [{ title := "Error", message := msg, color := .red }] }
      | .ok respId =>
          match o.getRes with
          | .error e =>
              let msg := errMsgOr e "Failed to upload question"
              { state := { addMsg st0 .assistant ("❌ " ++ msg) with
                           progress := none, loading := .idle }
                calls := [.uploadQuestion rubric.id file, .getQuestion respId]
                notes := [{ title := "Error", message := msg, color := .red }] }
          | .ok question =>
              let st1 :=
                { st0 with
                  selectedQuestion := some question
                  selectedSubmission := none
                  fusion := none
                  result := none
                  progress := none
                  loading := .idle }
              { state := addMsg st1 .assistant
                  ("✅ Question uploaded successfully: " ++ question.title)
                calls := [.uploadQuestion rubric.id file, .getQuestion respId]
                notes := [{ title := "Success"
                            message := "Question uploaded successfully"
                            color := .green }] }

end Page

/-- Handler-call oracle used in concrete queue evaluations. -/
def hcSample : QueuedPage.UploadTask → List ApiCall :=
  fun t => [.uploadQuestion 1 t.file]

/-- C5 counterexample: processing a queued question task while no rubric is
selected makes no network call — but it also surfaces zero warnings (the
claim requires exactly one), because the processing loop's `else`-less
prerequisite check skips the handler silently. -/
theorem queued_drop_is_silent :
    (QueuedPage.processUploadQueue hcSample false initialAppState
        [taskQ]).countP QueuedPage.isCall = 0 ∧
    (QueuedPage.processUploadQueue hcSample false initialAppState
        [taskQ]).countP QueuedPage.isWarned = 0 := by
  refine ⟨by decide, by decide⟩

/-- C5 (amended): initiating a question upload through the non-queued handler
while no rubric is selected performs zero network calls and surfaces exactly
one local warning (one warning notification, one appended activity message);
a queued upload task whose prerequisite is missing from the state snapshot of
the processing run is dropped with no network call and no handler start, but
silently — no warning is surfaced for it. -/
theorem question_upload_guard_and_silent_drop
    (o : QuestionUploadOracle) (file title : String) (st st2 : AppState)
    (handlerCalls : QueuedPage.UploadTask → List ApiCall)
    (t : QueuedPage.UploadTask)
    (h : st.selectedRubric = none)
    (h2 : QueuedPage.dispatchAllowed st2 t.kind = false) :
    (Page.handleQuestionUpload o file title st).calls = [] ∧
    (Page.handleQuestionUpload o file title st).notes =
      [{ title := "Warning"
         message := "Please select a rubric first"
         color := .orange }] ∧
    (Page.handleQuestionUpload o file title st).state.messages =
      st.messages ++ [{ kind := .assistant
                        text := "❌ Please select a rubric first" }] ∧
    QueuedPage.taskTrace handlerCalls st2 t = [] := by
  refine ⟨?_, ?_, ?_, QueuedPage.taskTrace_neg handlerCalls st2 t h2⟩ <;>
    simp [Page.handleQuestionUpload, h, addMsg]

/-- Witness for the amended C5 theorem at concrete inputs. -/
theorem question_upload_guard_witness :
    (Page.handleQuestionUpload
        { uploadRes := .ok 11, getRes := .ok questionQ1 } "q.pdf" "Q1"
        initialAppState).calls = [] ∧
    (Page.handleQuestionUpload
        { uploadRes := .ok 11, getRes := .ok questionQ1 } "q.pdf" "Q1"
        initialAppState).notes =
      [{ title := "Warning"
         message := "Please select a rubric first"
         color := .orange }] ∧
    (Page.handleQuestionUpload
        { uploadRes := .ok 11, getRes := .ok questionQ1 } "q.pdf" "Q1"
        initialAppState).state.messages =
      initialAppState.messages ++
        [{ kind := .assistant, text := "❌ Please select a rubric first" }] ∧
    QueuedPage.taskTrace hcSample initialAppState taskQ = [] :=
  question_upload_guard_and_silent_drop
    { uploadRes := .ok 11, getRes := .ok questionQ1 } "q.pdf" "Q1"
    initialAppState initialAppState hcSample taskQ rfl rfl

/-- JS truthiness of an optional string field (absent or empty is falsy). -/
def strTruthy : Option String → Bool
  | none => false
  | some s => !(s == "")

/-- Model of `Number.prototype.toFixed(1)` for the non-negative scores that
occur here: one digit after the decimal point, rounding half up. -/
def toFixed1 (x : ℚ) : String :=
  let n : ℤ := ⌊x * 10 + 1 / 2⌋
  toString (n / 10) ++ "." ++ toString (n % 10)

/-- `result.total?.toFixed(1) || "N/A"`. -/
def totalDisplay : Option ℚ → String
  | none => "N/A"
  | some x => toFixed1 x

/-- The default evaluate response synthesized by the queued orchestrator when
the resolved response body is falsy:
`{ eval_id: null, result: { total: 0, items: [], overall_feedback:
"Evaluation completed" } }`. -/
def defaultEvalResponse : EvalResponse :=
  { eval_id := none
    result :=
      { total := some 0
        items := []
        overall_feedback := some "Evaluation completed"
        narrative_evaluation := none
        narrative_strengths := none } }

/-- Success activity message of the queued orchestrator: the narrative format
is detected by `result.narrative_evaluation || result.narrative_strengths`. -/
def evalSuccessMsg (result : EvalResultPayload) : String :=
  if strTruthy result.narrative_evaluation
      || strTruthy result.narrative_strengths then
    "✅ Evaluation complete! Narrative feedback generated."
  else
    "✅ Evaluation complete! Total score: " ++ totalDisplay result.total
      ++ "/100 (" ++ toString result.items.length ++ " items graded)"

/-- Success notification of the queued orchestrator. -/
def evalSuccessNote (result : EvalResultPayload) : Note :=
  if strTruthy result.narrative_evaluation
      || strTruthy result.narrative_strengths then
    { title := "Success"
      message := "Evaluation complete! Feedback generated."
      color := .green }
  else
    { title := "Success"
      message := "Evaluation complete! Score: " ++ totalDisplay result.total
        ++ "/100"
      color := .green }

/-- Server oracle for one run of the queued orchestrator.  The orchestrator
may call `POST /fusion/build` up to twice in one run (step 1, and again for
the stale-closure `currentFusion` computation), so both outcomes are given;
`evalOutcome` is the `POST /evaluate` outcome, where `.error` is a transport
or API failure and `.ok none` is a resolved but falsy response body. -/
structure EvalOracle where
  buildFail1 : Option String
  buildFail2 : Option String
  token_estimate : Nat
  visual_count : Nat
  evalOutcome : Except String (Option EvalResponse)
deriving Repr

/-- `POST /fusion/build` per the server contract: on success the returned
context is derived from exactly the three ids of the request. -/
def apiBuildFusion (fail : Option String) (te vc r q s : Nat) :
    Except String Fusion :=
  match fail with
  | some e => .error e
  | none =>
      .ok { rubric_id := r, question_id := q, submission_id := s
            token_estimate := te, visual_count := vc }

namespace QueuedPage

/-- Step 2 of `handleEvaluate` (queued variant): sets loading to EVALUATING,
adds the user message, recomputes `currentFusion` from the run's *closure*
value of `state.fusion` — issuing a redundant second `buildFusion` call when
that closure value was absent — then issues the `evaluate` call.  A falsy
resolved body is replaced by `defaultEvalResponse`.  The deferred
`setTimeout(() => clearProgress(), 500)` is modelled as having run: the
returned state has `progress` cleared. -/
def handleEvaluateStep2 (o : EvalOracle) (r q s : Nat)
    (closureFusionAbsent : Bool) (firstCalls : List ApiCall)
    (st1 : AppState) : HandlerOutput :=
  let st2 := addMsg { st1 with loading := .evaluating } .user
    "Running LLM evaluation..."
  let secondCalls :=
    if closureFusionAbsent then [ApiCall.buildFusion r q s] else []
  match closureFusionAbsent,
      apiBuildFusion o.buildFail2 o.token_estimate o.visual_count r q s with
  | true, .error e =>
      let msg := errMsgOr e "Failed to run evaluation"
      { state := { addMsg st2 .assistant ("❌ " ++ msg) with
                   progress := none, loading := .idle }
        calls := firstCalls ++ [ApiCall.buildFusion r q s]
        notes := [{ title := "Error", message := msg, color := .red }] }
  | _, _ =>
      match o.evalOutcome with
      | .error e =>
          let msg := errMsgOr e "Failed to run evaluation"
          { state := { addMsg st2 .assistant ("❌ " ++ msg) with
                       progress := none, loading := .idle }
            calls := firstCalls ++ secondCalls ++ [ApiCall.evaluate r q s]
            notes := [{ title := "Error", message := msg, color := .red }] }
      | .ok body =>
          let resp := body.getD defaultEvalResponse
          let stS := { st2 with
                       result := some resp.result
                       evalId := resp.eval_id
                       progress := none
                       loading := .idle }
          { state := addMsg stS .assistant (evalSuccessMsg resp.result)
            calls := firstCalls ++ secondCalls ++ [ApiCall.evaluate r q s]
            notes := [evalSuccessNote resp.result] }

/-- `handleEvaluate` (queued variant), run atomically.  Refuses to act (no
calls, one warning) unless rubric, question and submission are all selected.
If no fusion is in state, step 1 issues one `buildFusion` call: on failure
the run aborts; on success the fusion (derived from the current three ids)
is installed and the run continues to step 2. -/
def handleEvaluate (o : EvalOracle) (st : AppState) : HandlerOutput :=
  match st.selectedRubric, st.selectedQuestion, st.selectedSubmission with
  | some rubric, some question, some submission =>
      match st.fusion with
      | none =>
          let stB := addMsg { st with loading := .building } .user
            "Building fusion context..."
          match apiBuildFusion o.buildFail1 o.token_estimate o.visual_count
              rubric.id question.id submission.id with
          | .error e =>
              let msg := errMsgOr e "Failed to run evaluation"
              { state := { addMsg stB .assistant ("❌ " ++ msg) with
                           progress := none, loading := .idle }
                calls := [ApiCall.buildFusion rubric.id question.id
                  submission.id]
                notes := [{ title := "Error", message := msg, color := .red }] }
          | .ok fusion =>
              let stB2 := addMsg
                { stB with fusion := some fusion, result := none
                           progress := none } .assistant
                ("✅ Fusion context built! Token estimate: "
                  ++ toString fusion.token_estimate ++ ", Visual count: "
                  ++ toString fusion.visual_count)
              handleEvaluateStep2 o rubric.id question.id submission.id true
                [ApiCall.buildFusion rubric.id question.id submission.id] stB2
      | some _ =>
          handleEvaluateStep2 o rubric.id question.id submission.id false [] st
  | _, _, _ =>
      { state := addMsg st .assistant
          "❌ Please select a rubric, question, and submission first"
        calls := []
        notes := [{ title := "Warning"
                    message := "Please select all required resources"
                    color := .orange }] }

/-- Two states carrying the same selected resources and fusion. -/
def sameResources (a b : AppState) : Prop :=
  a.selectedRubric = b.selectedRubric ∧
  a.selectedQuestion = b.selectedQuestion ∧
  a.selectedSubmission = b.selectedSubmission ∧
  a.fusion = b.fusion

/-- States reachable in the queued variant through its state transitions.
The `frame` rule allows arbitrary changes to the non-resource fields
(messages, loading, progress, result, evalId), covering the handlers not
modelled field-by-field here. -/
inductive Reachable : AppState → Prop
  | init : Reachable initialAppState
  | frame {a b : AppState} : Reachable a → sameResources a b → Reachable b
  | rubricSelect {st : AppState} (r : Rubric) :
      Reachable st → Reachable (rubricSelectT r st)
  | questionSelect {st : AppState} (q : Question) :
      Reachable st → Reachable (questionSelectT q st)
  | submissionSelect {st : AppState} (s : Submission) :
      Reachable st → Reachable (submissionSelectT s st)
  | rubricUpload {st : AppState} (r : Rubric) :
      Reachable st → Reachable (rubricUploadSuccessT r st)
  | questionUpload {st : AppState} (q : Question) :
      Reachable st → Reachable (questionUploadSuccessT q st)
  | submissionUpload {st : AppState} (s : Submission) :
      Reachable st → Reachable (submissionUploadSuccessT s st)
  | newEvaluation {st : AppState} : Reachable st → Reachable (newEvaluationT st)
  | evaluate {st : AppState} (o : EvalOracle) :
      Reachable st → Reachable (handleEvaluate o st).state

/-- An in-state fusion is never stale: it was built from exactly the ids of
the currently selected rubric, question and submission. -/
def FusionConsistent (st : AppState) : Prop :=
  ∀ f, st.fusion = some f →
    ∃ rubric question submission,
      st.selectedRubric = some rubric ∧
      st.selectedQuestion = some question ∧
      st.selectedSubmission = some submission ∧
      f.rubric_id = rubric.id ∧
      f.question_id = question.id ∧
      f.submission_id = submission.id

end QueuedPage

namespace QueuedPage

/-- One orchestrator run never changes which rubric, question or submission
is selected. -/
theorem handleEvaluate_keeps_selections (o : EvalOracle) (st : AppState) :
    (handleEvaluate o st).state.selectedRubric = st.selectedRubric ∧
    (handleEvaluate o st).state.selectedQuestion = st.selectedQuestion ∧
    (handleEvaluate o st).state.selectedSubmission = st.selectedSubmission := by
  cases hr : st.selectedRubric with
  | none => simp [handleEvaluate, hr, addMsg]
  | some rubric =>
  cases hq : st.selectedQuestion with
  | none => simp [handleEvaluate, hr, hq, addMsg]
  | some question =>
  cases hs : st.selectedSubmission with
  | none => simp [handleEvaluate, hr, hq, hs, addMsg]
  | some submission =>
  cases hf : st.fusion with
  | some f =>
    cases ho : o.evalOutcome <;>
      simp [handleEvaluate, hr, hq, hs, hf, ho, handleEvaluateStep2, addMsg]
  | none =>
    cases hb1 : o.buildFail1 with
    | some e =>
      simp [handleEvaluate, hr, hq, hs, hf, hb1, apiBuildFusion, addMsg]
    | none =>
      cases hb2 : o.buildFail2 with
      | some e =>
        simp [handleEvaluate, hr, hq, hs, hf, hb1, hb2, apiBuildFusion,
          handleEvaluateStep2, addMsg]
      | none =>
        cases ho : o.evalOutcome <;>
          simp [handleEvaluate, hr, hq, hs, hf, hb1, hb2, ho, apiBuildFusion,
            handleEvaluateStep2, addMsg]

/-- After one orchestrator run the fusion is either unchanged or was freshly
built from exactly the ids of the currently selected resources. -/
theorem handleEvaluate_fusion_shape (o : EvalOracle) (st : AppState) :
    (handleEvaluate o st).state.fusion = st.fusion ∨
    ∃ rubric question submission,
      st.selectedRubric = some rubric ∧
      st.selectedQuestion = some question ∧
      st.selectedSubmission = some submission ∧
      (handleEvaluate o st).state.fusion = some
        { rubric_id := rubric.id
          question_id := question.id
          submission_id := submission.id
          token_estimate := o.token_estimate
          visual_count := o.visual_count } := by
  cases hr : st.selectedRubric with
  | none => exact Or.inl (by simp [handleEvaluate, hr, addMsg])
  | some rubric =>
  cases hq : st.selectedQuestion with
  | none => exact Or.inl (by simp [handleEvaluate, hr, hq, addMsg])
  | some question =>
  cases hs : st.selectedSubmission with
  | none => exact Or.inl (by simp [handleEvaluate, hr, hq, hs, addMsg])
  | some submission =>
  cases hf : st.fusion with
  | some f =>
    refine Or.inl ?_
    cases ho : o.evalOutcome <;>
      simp [handleEvaluate, hr, hq, hs, hf, ho, handleEvaluateStep2, addMsg]
  | none =>
    cases hb1 : o.buildFail1 with
    | some e =>
      exact Or.inl (by
        simp [handleEvaluate, hr, hq, hs, hf, hb1, apiBuildFusion, addMsg])
    | none =>
      refine Or.inr ⟨rubric, question, submission, rfl, rfl, rfl, ?_⟩
      cases hb2 : o.buildFail2 with
      | some e =>
        simp [handleEvaluate, hr, hq, hs, hf, hb1, hb2, apiBuildFusion,
          handleEvaluateStep2, addMsg]
      | none =>
        cases ho : o.evalOutcome <;>
          simp [handleEvaluate, hr, hq, hs, hf, hb1, hb2, ho, apiBuildFusion,
            handleEvaluateStep2, addMsg]

/-- Invariant: in every reachable state of the queued variant, an in-state
fusion was built from exactly the ids of the currently selected rubric,
question and submission (every transition that changes a selection also sets
the fusion to absent). -/
theorem reachable_fusionConsistent {st : AppState} (h : Reachable st) :
    FusionConsistent st := by
  induction h with
  | init => intro f hf; simp [initialAppState] at hf
  | frame _ hsame ih =>
    intro f hf
    obtain ⟨h1, h2, h3, h4⟩ := hsame
    rw [← h4] at hf
    obtain ⟨rubric, question, submission, p1, p2, p3, p4, p5, p6⟩ := ih f hf
    exact ⟨rubric, question, submission, h1 ▸ p1, h2 ▸ p2, h3 ▸ p3, p4, p5, p6⟩
  | rubricSelect r _ _ => intro f hf; simp [rubricSelectT] at hf
  | questionSelect q _ _ => intro f hf; simp [questionSelectT] at hf
  | submissionSelect s _ _ => intro f hf; simp [submissionSelectT] at hf
  | rubricUpload r _ _ => intro f hf; simp [rubricUploadSuccessT] at hf
  | questionUpload q _ _ => intro f hf; simp [questionUploadSuccessT] at hf
  | submissionUpload s _ _ => intro f hf; simp [submissionUploadSuccessT] at hf
  | newEvaluation _ _ => intro f hf; simp [newEvaluationT] at hf
  | evaluate o _ ih =>
    intro f hf
    obtain ⟨p1, p2, p3⟩ := handleEvaluate_keeps_selections o _
    rcases handleEvaluate_fusion_shape o _ with heq |
      ⟨rubric, question, submission, hr, hq, hs, hff⟩
    · rw [heq] at hf
      obtain ⟨rubric, question, submission, q1, q2, q3, q4, q5, q6⟩ := ih f hf
      exact ⟨rubric, question, submission, p1.trans q1, p2.trans q2,
        p3.trans q3, q4, q5, q6⟩
    · rw [hff] at hf
      obtain rfl := Option.some.inj hf
      exact ⟨rubric, question, submission, p1.trans hr, p2.trans hq,
        p3.trans hs, rfl, rfl, rfl⟩

end QueuedPage

namespace QueuedPage

/-- The C2 property for one orchestrator run from state `st`:
the run issues no calls at all when a selection is missing, and whenever it
issues an `evaluate` call, either a `buildFusion` call for the same three ids
preceded it in this very run and succeeded, or a fusion was already in state,
its three input ids are exactly the currently selected ids, and the build
phase was skipped (the run's whole trace is the single evaluate call). -/
def EvaluateContextGuarded (o : EvalOracle) (st : AppState) : Prop :=
  ((st.selectedRubric = none ∨ st.selectedQuestion = none ∨
      st.selectedSubmission = none) →
    (handleEvaluate o st).calls = []) ∧
  ∀ a b r q s,
    (handleEvaluate o st).calls = a ++ ApiCall.evaluate r q s :: b →
    (o.buildFail1 = none ∧ ApiCall.buildFusion r q s ∈ a) ∨
    ∃ f rubric question submission,
      st.fusion = some f ∧
      st.selectedRubric = some rubric ∧
      st.selectedQuestion = some question ∧
      st.selectedSubmission = some submission ∧
      f.rubric_id = rubric.id ∧
      f.question_id = question.id ∧
      f.submission_id = submission.id ∧
      r = rubric.id ∧ q = question.id ∧ s = submission.id ∧
      (handleEvaluate o st).calls = [ApiCall.evaluate r q s]

end QueuedPage

/-- C2: in every reachable state, the queued orchestrator never issues an
evaluate call while the context is absent or stale — each run either
contains its own successful build-context call before the evaluate call, or
reuses an in-state context whose three input ids are unchanged and skips the
build phase entirely; and with a missing rubric, question or submission the
run refuses to do anything (no network calls). -/
theorem evaluate_call_guarded (o : EvalOracle) (st : AppState)
    (h : QueuedPage.Reachable st) :
    QueuedPage.EvaluateContextGuarded o st := by
  have hcons := QueuedPage.reachable_fusionConsistent h
  constructor
  · intro hmiss
    cases hr : st.selectedRubric with
    | none => simp [QueuedPage.handleEvaluate, hr]
    | some rubric =>
      cases hq : st.selectedQuestion with
      | none => simp [QueuedPage.handleEvaluate, hr, hq]
      | some question =>
        cases hs : st.selectedSubmission with
        | none => simp [QueuedPage.handleEvaluate, hr, hq, hs]
        | some submission =>
          rcases hmiss with hm | hm | hm <;> simp_all
  · intro a b r q s hcalls
    cases hr : st.selectedRubric with
    | none => simp [QueuedPage.handleEvaluate, hr] at hcalls
    | some rubric =>
    cases hq : st.selectedQuestion with
    | none => simp [QueuedPage.handleEvaluate, hr, hq] at hcalls
    | some question =>
    cases hs : st.selectedSubmission with
    | none => simp [QueuedPage.handleEvaluate, hr, hq, hs] at hcalls
    | some submission =>
    cases hf : st.fusion with
    | some f =>
      have hc : (QueuedPage.handleEvaluate o st).calls
          = [ApiCall.evaluate rubric.id question.id submission.id] := by
        cases ho : o.evalOutcome <;>
          simp [QueuedPage.handleEvaluate, hr, hq, hs, hf, ho,
            QueuedPage.handleEvaluateStep2]
      rw [hc] at hcalls
      rcases a with _ | ⟨x, a'⟩
      · simp only [List.nil_append, List.cons.injEq] at hcalls
        obtain ⟨hev, hb⟩ := hcalls
        obtain ⟨h1, h2, h3⟩ := ApiCall.evaluate.inj hev
        obtain ⟨ru, qu, su, c1, c2, c3, c4, c5, c6⟩ := hcons f hf
        have hru : ru = rubric := Option.some.inj (c1.symm.trans hr)
        have hqu : qu = question := Option.some.inj (c2.symm.trans hq)
        have hsu : su = submission := Option.some.inj (c3.symm.trans hs)
        have e4 : f.rubric_id = rubric.id := by rw [c4, hru]
        have e5 : f.question_id = question.id := by rw [c5, hqu]
        have e6 : f.submission_id = submission.id := by rw [c6, hsu]
        refine Or.inr ⟨f, rubric, question, submission, rfl, rfl, rfl, rfl,
          e4, e5, e6, h1.symm, h2.symm, h3.symm, ?_⟩
        rw [hc, h1, h2, h3]
      · exfalso
        simp at hcalls
    | none =>
      cases hb1 : o.buildFail1 with
      | some e =>
        have hc : (QueuedPage.handleEvaluate o st).calls
            = [ApiCall.buildFusion rubric.id question.id submission.id] := by
          simp [QueuedPage.handleEvaluate, hr, hq, hs, hf, hb1, apiBuildFusion]
        rw [hc] at hcalls
        exfalso
        rcases a with _ | ⟨x, a'⟩
        · simp at hcalls
        · simp at hcalls
      | none =>
        cases hb2 : o.buildFail2 with
        | some e =>
          have hc : (QueuedPage.handleEvaluate o st).calls
              = [ApiCall.buildFusion rubric.id question.id submission.id,
                 ApiCall.buildFusion rubric.id question.id submission.id] := by
            simp [QueuedPage.handleEvaluate, hr, hq, hs, hf, hb1, hb2,
              apiBuildFusion, QueuedPage.handleEvaluateStep2]
          rw [hc] at hcalls
          exfalso
          rcases a with _ | ⟨x, _ | ⟨y, a'⟩⟩
          · simp at hcalls
          · simp at hcalls
          · simp at hcalls
        | none =>
          have hc : (QueuedPage.handleEvaluate o st).calls
              = [ApiCall.buildFusion rubric.id question.id submission.id,
                 ApiCall.buildFusion rubric.id question.id submission.id,
                 ApiCall.evaluate rubric.id question.id submission.id] := by
            cases ho : o.evalOutcome <;>
              simp [QueuedPage.handleEvaluate, hr, hq, hs, hf, hb1, hb2, ho,
                apiBuildFusion, QueuedPage.handleEvaluateStep2]
          rw [hc] at hcalls
          rcases a with _ | ⟨x, _ | ⟨y, _ | ⟨z, a'⟩⟩⟩
          · exfalso; simp at hcalls
          · exfalso; simp at hcalls
          · simp only [List.cons_append, List.nil_append,
              List.cons.injEq] at hcalls
            obtain ⟨hx, hy, hev, hb⟩ := hcalls
            obtain ⟨h1, h2, h3⟩ := ApiCall.evaluate.inj hev
            refine Or.inl ⟨rfl, ?_⟩
            rw [← hx, h1, h2, h3]
            exact List.mem_cons_self _ _
          · exfalso; simp at hcalls

/-- A fully successful server oracle for concrete runs. -/
def oracleHappy : EvalOracle :=
  { buildFail1 := none
    buildFail2 := none
    token_estimate := 5
    visual_count := 1
    evalOutcome := .ok (some
      { eval_id := some 99
        result :=
          { total := some 87
            items := [{ criterion := "content", score := 87 }]
            overall_feedback := some "Good work"
            narrative_evaluation := none
            narrative_strengths := none } }) }

/-- Witness for C2 at a concrete reachable state (select `R1`, then `Q1`,
then `S1`) and a fully successful oracle. -/
theorem evaluate_call_guarded_witness :
    QueuedPage.EvaluateContextGuarded oracleHappy stR1Q1S1 :=
  evaluate_call_guarded oracleHappy stR1Q1S1
    (QueuedPage.Reachable.submissionSelect submissionS1
      (QueuedPage.Reachable.questionSelect questionQ1
        (QueuedPage.Reachable.rubricSelect rubricR1 QueuedPage.Reachable.init)))

/-- C10: when the evaluate call resolves with a falsy body, the queued
orchestrator behaves exactly as if the server had returned
`defaultEvalResponse` (same state, calls and notifications), and — when the
run reaches the evaluate phase — it proceeds to the result-ready state
storing the synthesized default result (total 0, empty items, overall
feedback "Evaluation completed") together with a null evaluation-session
id. -/
theorem falsy_evaluate_body_defaults (o : EvalOracle) (st : AppState)
    (ho : o.evalOutcome = .ok none) :
    QueuedPage.handleEvaluate o st
      = QueuedPage.handleEvaluate
          { o with evalOutcome := .ok (some defaultEvalResponse) } st ∧
    (st.selectedRubric ≠ none → st.selectedQuestion ≠ none →
      st.selectedSubmission ≠ none → o.buildFail1 = none →
      o.buildFail2 = none →
      (QueuedPage.handleEvaluate o st).state.result
          = some defaultEvalResponse.result ∧
      (QueuedPage.handleEvaluate o st).state.evalId = none ∧
      (QueuedPage.handleEvaluate o st).state.loading = .idle ∧
      (QueuedPage.handleEvaluate o st).state.progress = none) := by
  constructor
  · cases hr : st.selectedRubric with
    | none => simp [QueuedPage.handleEvaluate, hr]
    | some rubric =>
    cases hq : st.selectedQuestion with
    | none => simp [QueuedPage.handleEvaluate, hr, hq]
    | some question =>
    cases hs : st.selectedSubmission with
    | none => simp [QueuedPage.handleEvaluate, hr, hq, hs]
    | some submission =>
    cases hf : st.fusion with
    | some f =>
      simp [QueuedPage.handleEvaluate, hr, hq, hs, hf,
        QueuedPage.handleEvaluateStep2, ho]
    | none =>
      cases hb1 : o.buildFail1 with
      | some e =>
        simp [QueuedPage.handleEvaluate, hr, hq, hs, hf, hb1, apiBuildFusion]
      | none =>
        cases hb2 : o.buildFail2 with
        | some e =>
          simp [QueuedPage.handleEvaluate, hr, hq, hs, hf, hb1, hb2,
            apiBuildFusion, QueuedPage.handleEvaluateStep2]
        | none =>
          simp [QueuedPage.handleEvaluate, hr, hq, hs, hf, hb1, hb2,
            apiBuildFusion, QueuedPage.handleEvaluateStep2, ho]
  · intro h1 h2 h3 hb1 hb2
    cases hr : st.selectedRubric with
    | none => exact absurd hr h1
    | some rubric =>
    cases hq : st.selectedQuestion with
    | none => exact absurd hq h2
    | some question =>
    cases hs : st.selectedSubmission with
    | none => exact absurd hs h3
    | some submission =>
    cases hf : st.fusion with
    | some f =>
      simp [QueuedPage.handleEvaluate, hr, hq, hs, hf,
        QueuedPage.handleEvaluateStep2, ho, addMsg, defaultEvalResponse]
    | none =>
      simp [QueuedPage.handleEvaluate, hr, hq, hs, hf, hb1, hb2,
        apiBuildFusion, QueuedPage.handleEvaluateStep2, ho, addMsg,
        defaultEvalResponse]

/-- Oracle with a successful build and an evaluate call that resolves with a
falsy body. -/
def oracleFalsy : EvalOracle :=
  { buildFail1 := none
    buildFail2 := none
    token_estimate := 5
    visual_count := 1
    evalOutcome := .ok none }

/-- Witness for C10 at a concrete state with all three resources selected. -/
theorem falsy_evaluate_body_defaults_witness :
    (QueuedPage.handleEvaluate oracleFalsy stR1Q1S1).state.result
        = some defaultEvalResponse.result ∧
    (QueuedPage.handleEvaluate oracleFalsy stR1Q1S1).state.evalId = none ∧
    (QueuedPage.handleEvaluate oracleFalsy stR1Q1S1).state.loading = .idle ∧
    (QueuedPage.handleEvaluate oracleFalsy stR1Q1S1).state.progress = none :=
  (falsy_evaluate_body_defaults oracleFalsy stR1Q1S1 rfl).2
    (by decide) (by decide) (by decide) rfl rfl

namespace UploadProgress

/-- JS `Math.round` for the non-negative values occurring here: round half
up, i.e. the floor of `x + 1/2`. -/
def jsRound (x : ℚ) : ℤ :=
  ⌊x + 1 / 2⌋

/-- Events one pending `uploadFile` request can observe before settling:
a simulated 400ms interval tick (with its random increment) or a real
`xhr.upload` progress event with computable length. -/
inductive XhrEvent
  | tick (inc : ℚ)
  | transfer (loaded total : ℕ)
deriving DecidableEq, Repr

/-- Tick increments are `Math.random() * 12 + 3`, hence in `[3, 15]`;
computable transfer events have a positive total and `loaded ≤ total`. -/
def ValidEvent : XhrEvent → Prop
  | .tick inc => 3 ≤ inc ∧ inc ≤ 15
  | .transfer loaded total => 0 < total ∧ loaded ≤ total

instance : DecidablePred ValidEvent := by
  intro e
  cases e <;> simp [ValidEvent] <;> infer_instance

/-- The real-scaled value of a transfer event:
`Math.min(Math.round((loaded / total) * 100) * 0.3, 30)`. -/
def adjustedOf (loaded total : ℕ) : ℚ :=
  min ((jsRound ((loaded : ℚ) / (total : ℚ) * 100) : ℚ) * (3 / 10)) 30

/-- One event against the closure variable `progressValue`: returns the new
value and the reports pushed through `onProgress`.  A tick below the 85
ceiling adds its increment and reports `Math.min(Math.round(pv), 85)`; a
transfer event is merged only when its real-scaled value exceeds the
current value, reporting `Math.round(pv)`. -/
def stepEvent (pv : ℚ) : XhrEvent → ℚ × List ℤ
  | .tick inc =>
      if pv < 85 then (pv + inc, [min (jsRound (pv + inc)) 85])
      else (pv, [])
  | .transfer loaded total =>
      let adjusted := adjustedOf loaded total
      if pv < adjusted then (adjusted, [jsRound adjusted])
      else (pv, [])

/-- Run a list of events from a given `progressValue`. -/
def runEvents (pv : ℚ) : List XhrEvent → ℚ × List ℤ
  | [] => (pv, [])
  | e :: es =>
      ((runEvents (stepEvent pv e).1 es).1,
        (stepEvent pv e).2 ++ (runEvents (stepEvent pv e).1 es).2)

/-- All reports of a pending request: the initial `onProgress(0)` plus the
events' reports. -/
def reportsPending (events : List XhrEvent) : List ℤ :=
  0 :: (runEvents 0 events).2

/-- All reports of a request whose load handler fires with a 2xx status:
the pending reports followed by the final `onProgress(100)`.  The error and
abort handlers emit no report at all, so a failed request's reports are
exactly `reportsPending`. -/
def reportsSuccess (events : List XhrEvent) : List ℤ :=
  reportsPending events ++ [100]

theorem jsRound_mono {x y : ℚ} (h : x ≤ y) : jsRound x ≤ jsRound y :=
  Int.floor_le_floor (by linarith)

theorem jsRound_intCast (n : ℤ) : jsRound (n : ℚ) = n := by
  unfold jsRound
  rw [add_comm, Int.floor_add_int]
  norm_num

theorem jsRound_le_of_le {x : ℚ} {n : ℤ} (h : x ≤ (n : ℚ)) : jsRound x ≤ n :=
  (jsRound_mono h).trans (le_of_eq (jsRound_intCast n))

/-- One step preserves the invariant `last ≤ min (round pv) 85` linking the
last reported value to the current progress value; any new report is at
least the previous one. -/
theorem stepEvent_inv (pv : ℚ) (e : XhrEvent) (hv : ValidEvent e) (last : ℤ)
    (hinv : last ≤ min (jsRound pv) 85) :
    (stepEvent pv e).2 = [] ∧ last ≤ min (jsRound (stepEvent pv e).1) 85 ∨
    ∃ r, (stepEvent pv e).2 = [r] ∧ last ≤ r ∧
      r ≤ min (jsRound (stepEvent pv e).1) 85 := by
  cases e with
  | tick inc =>
    obtain ⟨h3, _⟩ := hv
    by_cases hlt : pv < 85
    · refine Or.inr ⟨min (jsRound (pv + inc)) 85, ?_, ?_, ?_⟩
      · simp [stepEvent, hlt]
      · have hmono : jsRound pv ≤ jsRound (pv + inc) :=
          jsRound_mono (by linarith)
        have : min (jsRound pv) 85 ≤ min (jsRound (pv + inc)) 85 := by
          omega
        omega
      · simp [stepEvent, hlt]
    · refine Or.inl ⟨by simp [stepEvent, hlt], ?_⟩
      simp only [stepEvent, hlt, if_false]
      exact hinv
  | transfer loaded total =>
    by_cases hlt : pv < adjustedOf loaded total
    · refine Or.inr ⟨jsRound (adjustedOf loaded total), ?_, ?_, ?_⟩
      · simp [stepEvent, hlt]
      · have hmono : jsRound pv ≤ jsRound (adjustedOf loaded total) :=
          jsRound_mono (le_of_lt hlt)
        omega
      · have hle30 : adjustedOf loaded total ≤ (30 : ℚ) := by
          unfold adjustedOf
          exact min_le_right _ _
        have h30 : jsRound (adjustedOf loaded total) ≤ (30 : ℤ) :=
          jsRound_le_of_le (by exact_mod_cast hle30)
        simp [stepEvent, hlt]
        omega
    · refine Or.inl ⟨by simp [stepEvent, hlt], ?_⟩
      simp only [stepEvent, hlt, if_false]
      exact hinv

/-- The reports of a run are a non-decreasing chain from the last report,
stay below or at the 85 ceiling, and may be followed by the final 100. -/
theorem runEvents_chain (events : List XhrEvent) :
    ∀ (pv : ℚ) (last : ℤ), (∀ e ∈ events, ValidEvent e) →
      last ≤ min (jsRound pv) 85 →
      List.Chain (· ≤ ·) last ((runEvents pv events).2 ++ [100]) ∧
      ∀ r ∈ (runEvents pv events).2, r ≤ 85 := by
  induction events with
  | nil =>
    intro pv last _ hinv
    refine ⟨?_, by simp [runEvents]⟩
    have : last ≤ 85 := le_trans hinv (min_le_right _ _)
    simp [runEvents]
    omega
  | cons e es ih =>
    intro pv last hv hinv
    have hve : ValidEvent e := hv e (by simp)
    have hves : ∀ x ∈ es, ValidEvent x := fun x hx => hv x (by simp [hx])
    rcases stepEvent_inv pv e hve last hinv with ⟨hnil, hinv2⟩ |
      ⟨r, hrep, hlr, hinv2⟩
    · obtain ⟨hchain, hbound⟩ := ih (stepEvent pv e).1 last hves hinv2
      refine ⟨?_, ?_⟩
      · simpa [runEvents, hnil] using hchain
      · intro x hx
        simp [runEvents, hnil] at hx
        exact hbound x hx
    · obtain ⟨hchain, hbound⟩ := ih (stepEvent pv e).1 r hves hinv2
      refine ⟨?_, ?_⟩
      · simp [runEvents, hrep]
        exact ⟨hlr, hchain⟩
      · intro x hx
        simp [runEvents, hrep] at hx
        rcases hx with rfl | hx
        · exact le_trans hinv2 (min_le_right _ _)
        · exact hbound x hx

end UploadProgress

/-- C3: for any single in-flight upload, under every interleaving of
simulated ticks and real transfer events the reported progress percents form
a monotonically non-decreasing chain from the initial 0 through the final
100; every report before completion is at most the 85 ceiling (strictly
below 100), so 100 is reported only by the success handler; and a real
transfer event is merged by taking the greater of the current simulated
value and the real-scaled value, never decreasing. -/
theorem upload_progress_monotone (events : List UploadProgress.XhrEvent)
    (hv : ∀ e ∈ events, UploadProgress.ValidEvent e) :
    List.Chain' (· ≤ ·) (UploadProgress.reportsSuccess events) ∧
    (∀ r ∈ UploadProgress.reportsPending events, r ≤ 85) ∧
    ∀ (pv : ℚ) (loaded total : ℕ),
      (UploadProgress.stepEvent pv (.transfer loaded total)).1
        = max pv (UploadProgress.adjustedOf loaded total) := by
  have h00 : UploadProgress.jsRound 0 = 0 := by
    have := UploadProgress.jsRound_intCast 0
    simpa using this
  obtain ⟨hchain, hbound⟩ :=
    UploadProgress.runEvents_chain events 0 0 hv (by rw [h00]; simp)
  refine ⟨?_, ?_, ?_⟩
  · show List.Chain (· ≤ ·) 0
      ((UploadProgress.runEvents 0 events).2 ++ [100])
    exact hchain
  · intro r hr
    unfold UploadProgress.reportsPending at hr
    rcases List.mem_cons.mp hr with rfl | hr
    · omega
    · exact hbound r hr
  · intro pv loaded total
    unfold UploadProgress.stepEvent
    by_cases hlt : pv < UploadProgress.adjustedOf loaded total
    · simp [hlt, max_eq_right (le_of_lt hlt)]
    · simp [hlt, max_eq_left (le_of_not_lt hlt)]

/-- A concrete interleaving of ticks and transfer events. -/
def eventsSample : List UploadProgress.XhrEvent :=
  [.tick 3, .transfer 1 2, .tick 14, .transfer 2 2, .tick 15, .tick 4]

/-- Witness for C3 at a concrete interleaving. -/
theorem upload_progress_monotone_witness :
    List.Chain' (· ≤ ·) (UploadProgress.reportsSuccess eventsSample) ∧
    ∀ r ∈ UploadProgress.reportsPending eventsSample, r ≤ 85 :=
  ⟨(upload_progress_monotone eventsSample (by decide)).1,
   (upload_progress_monotone eventsSample (by decide)).2.1⟩

/-- Model of JS `String.prototype.trim`: strip whitespace from both ends.
(Defined over the character list so that concrete inputs evaluate.) -/
def jsTrim (s : String) : String :=
  String.mk (((s.data.dropWhile Char.isWhitespace).reverse.dropWhile
    Char.isWhitespace).reverse)

namespace ChatHook

/-- A chat message `{role, content, timestamp}`. -/
structure ChatMsg where
  role : String
  content : String
  timestamp : String
deriving DecidableEq, Repr

/-- Observable steps of one `sendMessage` invocation, in order. -/
inductive SendStep
  | appendOptimistic
  | networkSend
  | appendAssistant
  | surfaceError
  | rollback
deriving DecidableEq, Repr

/-- The hook state touched by `sendMessage`. -/
structure SendState where
  messages : List ChatMsg
  error : Option String
  loading : Bool
deriving DecidableEq, Repr

/-- `sendMessage` of `useChatSession` (run atomically): bails out with no
effect when no session exists or the text trims to empty; otherwise clears
the error, appends the optimistic user message, issues the network call,
then on success appends the returned assistant message and on failure sets
the error once and removes the last message (`prev.slice(0, -1)`), restoring
the history.  The rethrown error is caught by the composer, which only
restores the input text. -/
def sendMessage (sessionId : Option Nat) (text now : String)
    (outcome : Except String ChatMsg) (st : SendState) :
    SendState × List SendStep :=
  if sessionId.isNone || jsTrim text == "" then (st, [])
  else
    let userMsg : ChatMsg :=
      { role := "user", content := text, timestamp := now }
    let st1 : SendState :=
      { st with
        error := none
        loading := true
        messages := st.messages ++ [userMsg] }
    match outcome with
    | .ok assistantMsg =>
        ({ st1 with
           messages := st1.messages ++ [assistantMsg]
           loading := false },
         [.appendOptimistic, .networkSend, .appendAssistant])
    | .error e =>
        ({ st1 with
           error := some e
           messages := st1.messages.dropLast
           loading := false },
         [.appendOptimistic, .networkSend, .surfaceError, .rollback])

/-- Hook lifecycle events seen by `useChatSession`'s effects. -/
inductive LifeEvent
  | setSession (s : Nat)
  | sendMsg
  | unmount
deriving DecidableEq, Repr

/-- The hook state relevant to teardown. -/
structure HookState where
  sessionId : Option Nat
  error : Option String
deriving DecidableEq, Repr

/-- Cleanup of the `[sessionId]` effect: one fire-and-forget
`chatAPI.deleteSession(sessionId)` when a session id is present.  The
`.catch` handler only logs, so the hook state never depends on whether the
delete succeeds. -/
def cleanupDeletes : Option Nat → List Nat
  | some s => [s]
  | none => []

/-- One lifecycle step, with the delete-session calls it issues.  Per React
semantics the `[sessionId]` effect's previous cleanup runs when the
dependency changes, and the last cleanup runs on unmount; sends leave the
dependency untouched. -/
def stepLife (st : HookState) : LifeEvent → HookState × List Nat
  | .setSession s =>
      if st.sessionId = some s then (st, [])
      else ({ st with sessionId := some s }, cleanupDeletes st.sessionId)
  | .sendMsg => (st, [])
  | .unmount => (st, cleanupDeletes st.sessionId)

/-- Run a list of lifecycle events, collecting the delete-session calls. -/
def runLife (st : HookState) : List LifeEvent → HookState × List Nat
  | [] => (st, [])
  | e :: es =>
      ((runLife (stepLife st e).1 es).1,
        (stepLife st e).2 ++ (runLife (stepLife st e).1 es).2)

/-- Outcome of the raw fetch inside `chatAPI.sendMessage`. -/
inductive FetchOutcome
  | ok (msg : ChatMsg)
  | httpError (status : Nat)
  | transportFailure (e : String)
deriving DecidableEq, Repr

/-- Error mapping of `chatAPI.sendMessage`: a non-ok response with status 404
throws the dedicated "Chat session expired" error; any other non-ok status
throws the generic message carrying the status; a rejected fetch propagates
its own error unchanged. -/
def sendMessageOutcome : FetchOutcome → Except String ChatMsg
  | .ok m => .ok m
  | .httpError status =>
      if status == 404 then .error "Chat session expired"
      else .error ("Failed to send message: " ++ toString status)
  | .transportFailure e => .error e

end ChatHook

/-- C4: for every chat send with a session and non-blank text, the optimistic
user message is appended before the network call; on failure the history is
restored to exactly its pre-send value, the error is surfaced exactly once
and the trace ends rolled back; on success exactly the returned assistant
message is appended after the user message. -/
theorem send_message_optimistic_rollback (sessionId : Option Nat)
    (text now : String) (outcome : Except String ChatHook.ChatMsg)
    (st : ChatHook.SendState)
    (hsess : sessionId.isNone = false)
    (htext : (jsTrim text == "") = false) :
    (ChatHook.sendMessage sessionId text now outcome st).2.take 2
        = [.appendOptimistic, .networkSend] ∧
    (∀ e, outcome = .error e →
      (ChatHook.sendMessage sessionId text now outcome st).1.messages
          = st.messages ∧
      (ChatHook.sendMessage sessionId text now outcome st).1.error = some e ∧
      ((ChatHook.sendMessage sessionId text now outcome st).2.countP
          (fun s => s == ChatHook.SendStep.surfaceError)) = 1) ∧
    ∀ m, outcome = .ok m →
      (ChatHook.sendMessage sessionId text now outcome st).1.messages
        = st.messages ++
            [{ role := "user", content := text, timestamp := now }, m] := by
  refine ⟨?_, ?_, ?_⟩
  · cases outcome <;> simp [ChatHook.sendMessage, hsess, htext]
  · intro e he
    subst he
    refine ⟨?_, ?_, ?_⟩
    · simp [ChatHook.sendMessage, hsess, htext, List.dropLast_concat]
    · simp [ChatHook.sendMessage, hsess, htext]
    · simp [ChatHook.sendMessage, hsess, htext, List.countP_cons]
  · intro m hm
    subst hm
    simp [ChatHook.sendMessage, hsess, htext]

/-- Witness for C4 at a concrete failing and a concrete succeeding send. -/
theorem send_message_optimistic_rollback_witness :
    ((ChatHook.sendMessage (some 7) "hi" "t0" (.error "boom")
        { messages := [], error := none, loading := false }).1.messages
      = ([] : List ChatHook.ChatMsg)) ∧
    (ChatHook.sendMessage (some 7) "hi" "t0" (.error "boom")
        { messages := [], error := none, loading := false }).1.error
      = some "boom" :=
  ⟨((send_message_optimistic_rollback (some 7) "hi" "t0" (.error "boom")
      { messages := [], error := none, loading := false }
      rfl (by decide)).2.1 "boom" rfl).1,
   ((send_message_optimistic_rollback (some 7) "hi" "t0" (.error "boom")
      { messages := [], error := none, loading := false }
      rfl (by decide)).2.1 "boom" rfl).2.1⟩

/-- C8: after a session `s` has been created (the hook starts with no
session), any number of sends followed by dismissing/unmounting the chat UI
produces exactly one delete-session call, carrying `s`; and the unmount
cleanup leaves the hook state untouched — in particular no error is
surfaced, whatever becomes of the fire-and-forget delete call. -/
theorem chat_close_single_delete (s : Nat) (n : Nat)
    (st0 : ChatHook.HookState) (h : st0.sessionId = none) :
    (ChatHook.runLife st0
        (.setSession s :: (List.replicate n .sendMsg ++ [.unmount]))).2
      = [s] ∧
    ∀ st : ChatHook.HookState, (ChatHook.stepLife st .unmount).1 = st := by
  have hsends : ∀ (k : Nat) (st : ChatHook.HookState),
      ChatHook.runLife st (List.replicate k .sendMsg ++ [.unmount])
        = (st, ChatHook.cleanupDeletes st.sessionId) := by
    intro k
    induction k with
    | zero => intro st; simp [ChatHook.runLife, ChatHook.stepLife]
    | succ k ih => intro st; simp [ChatHook.runLife, ChatHook.stepLife, ih]
  constructor
  · have hstep : ChatHook.stepLife st0 (.setSession s)
        = ({ st0 with sessionId := some s }, ChatHook.cleanupDeletes none) := by
      simp [ChatHook.stepLife, h]
    simp [ChatHook.runLife, hstep, hsends, ChatHook.cleanupDeletes]
  · intro st
    simp [ChatHook.stepLife]

/-- Witness for C8 with two sends from the initial hook state. -/
theorem chat_close_single_delete_witness :
    (ChatHook.runLife { sessionId := none, error := none }
        (.setSession 42 :: (List.replicate 2 .sendMsg ++ [.unmount]))).2
      = [42] ∧
    ∀ st : ChatHook.HookState, (ChatHook.stepLife st .unmount).1 = st :=
  chat_close_single_delete 42 2 { sessionId := none, error := none } rfl

/-- C9: a chat-send 404 is surfaced as the dedicated recoverable
"Chat session expired" error, which no other non-2xx status can produce
(their generic message differs), and a transport failure propagates its own
distinct error unchanged, so the caller can tell session expiry apart and
offer a new session instead of a retry. -/
theorem chat_404_distinct (status : Nat) (hne : status ≠ 404) :
    ChatHook.sendMessageOutcome (.httpError 404)
        = .error "Chat session expired" ∧
    ChatHook.sendMessageOutcome (.httpError status)
        ≠ .error "Chat session expired" ∧
    ∀ e, ChatHook.sendMessageOutcome (.transportFailure e) = .error e := by
  refine ⟨rfl, ?_, fun e => rfl⟩
  simp only [ChatHook.sendMessageOutcome, beq_iff_eq, hne, if_false]
  intro heq
  have h2 : "Failed to send message: " ++ toString status
      = "Chat session expired" := Except.error.inj heq
  have h3 := congrArg String.length h2
  rw [String.length_append] at h3
  have h4 : ("Failed to send message: ").length = 24 := rfl
  have h5 : ("Chat session expired").length = 20 := rfl
  omega

/-- Witness for C9 at the concrete status 500. -/
theorem chat_404_distinct_witness :
    ChatHook.sendMessageOutcome (.httpError 404)
        = .error "Chat session expired" ∧
    ChatHook.sendMessageOutcome (.httpError 500)
        ≠ .error "Chat session expired" ∧
    ∀ e, ChatHook.sendMessageOutcome (.transportFailure e) = .error e :=
  chat_404_distinct 500 (by decide)

/-- `isEvaluateDisabled` from `ActionButtons`: the Run Evaluation button is
disabled — a click is a no-op — whenever the prerequisites are missing or
the loading state says a build or evaluation is in flight. -/
def isEvaluateDisabled (canEvaluate : Bool) (loading : LoadingState) : Bool :=
  !canEvaluate || loading == .building || loading == .evaluating

namespace Orchestrator

/-- External events driving the evaluate button and the orchestrator's
pending network calls. -/
inductive UiEvent
  | click
  | buildResolved (ok : Bool)
  | evalResolved (ok : Bool)
deriving DecidableEq, Repr

/-- Start and end of one build/evaluate flight of the orchestrator. -/
inductive FlightEvent
  | flightStart
  | flightEnd
deriving DecidableEq, Repr

/-- The (fixed, per scenario) prerequisites: whether `canEvaluate` holds and
whether a fusion is already in state when a run starts. -/
structure Config where
  canEvaluate : Bool
  fusionPresent : Bool
deriving DecidableEq, Repr

/-- One scheduler step.  A click on the disabled button does nothing; an
enabled click enters `handleEvaluate`, which synchronously sets the loading
state to BUILDING (or EVALUATING when a fusion is reused) before its first
await.  Build/evaluate resolutions drive the run forward; the `finally`
clause returns the loading state to IDLE when the run ends. -/
def step (cfg : Config) (l : LoadingState) :
    UiEvent → LoadingState × List FlightEvent
  | .click =>
      if isEvaluateDisabled cfg.canEvaluate l then (l, [])
      else if cfg.fusionPresent then (.evaluating, [.flightStart])
      else (.building, [.flightStart])
  | .buildResolved ok =>
      match l with
      | .building =>
          if ok then (.evaluating, []) else (.idle, [.flightEnd])
      | _ => (l, [])
  | .evalResolved _ =>
      match l with
      | .evaluating => (.idle, [.flightEnd])
      | _ => (l, [])

/-- Run a list of events, collecting flight starts and ends. -/
def run (cfg : Config) (l : LoadingState) :
    List UiEvent → LoadingState × List FlightEvent
  | [] => (l, [])
  | e :: es =>
      ((run cfg (step cfg l e).1 es).1,
        (step cfg l e).2 ++ (run cfg (step cfg l e).1 es).2)

/-- Whether a build/evaluate flight is in progress in a loading state. -/
def inFlight : LoadingState → Bool
  | .building => true
  | .evaluating => true
  | _ => false

/-- Strictly alternating flight starts and ends: no flight starts while
another is in progress, so phases never overlap. -/
def Alternating : Bool → List FlightEvent → Prop
  | _, [] => True
  | false, .flightStart :: tr => Alternating true tr
  | true, .flightEnd :: tr => Alternating false tr
  | _, _ => False

/-- Every run's flight trace alternates starts and ends, tracking the
in-flight status of the loading state. -/
theorem run_alternating (cfg : Config) :
    ∀ (es : List UiEvent) (l : LoadingState),
      Alternating (inFlight l) (run cfg l es).2 := by
  intro es
  induction es with
  | nil =>
    intro l
    simp [run, Alternating]
  | cons e es ih =>
    intro l
    cases e with
    | click =>
      cases l with
      | building =>
        simpa [run, step, isEvaluateDisabled, inFlight] using
          ih LoadingState.building
      | evaluating =>
        simpa [run, step, isEvaluateDisabled, inFlight] using
          ih LoadingState.evaluating
      | idle =>
        by_cases hcan : cfg.canEvaluate = true
        · cases hfp : cfg.fusionPresent
          · simpa [run, step, isEvaluateDisabled, hcan, hfp, Alternating,
              inFlight] using ih LoadingState.building
          · simpa [run, step, isEvaluateDisabled, hcan, hfp, Alternating,
              inFlight] using ih LoadingState.evaluating
        · simp only [Bool.not_eq_true] at hcan
          simpa [run, step, isEvaluateDisabled, hcan, inFlight] using
            ih LoadingState.idle
      | uploading =>
        by_cases hcan : cfg.canEvaluate = true
        · cases hfp : cfg.fusionPresent
          · simpa [run, step, isEvaluateDisabled, hcan, hfp, Alternating,
              inFlight] using ih LoadingState.building
          · simpa [run, step, isEvaluateDisabled, hcan, hfp, Alternating,
              inFlight] using ih LoadingState.evaluating
        · simp only [Bool.not_eq_true] at hcan
          simpa [run, step, isEvaluateDisabled, hcan, inFlight] using
            ih LoadingState.uploading
    | buildResolved ok =>
      cases l with
      | building =>
        cases ok
        · have h2 := ih LoadingState.idle
          simpa [run, step, Alternating, inFlight] using h2
        · have h2 := ih LoadingState.evaluating
          simpa [run, step, Alternating, inFlight] using h2
      | idle =>
        have h2 := ih LoadingState.idle
        simpa [run, step, Alternating, inFlight] using h2
      | uploading =>
        have h2 := ih LoadingState.uploading
        simpa [run, step, Alternating, inFlight] using h2
      | evaluating =>
        have h2 := ih LoadingState.evaluating
        simpa [run, step, Alternating, inFlight] using h2
    | evalResolved ok =>
      cases l with
      | evaluating =>
        have h2 := ih LoadingState.idle
        simpa [run, step, Alternating, inFlight] using h2
      | idle =>
        have h2 := ih LoadingState.idle
        simpa [run, step, Alternating, inFlight] using h2
      | uploading =>
        have h2 := ih LoadingState.uploading
        simpa [run, step, Alternating, inFlight] using h2
      | building =>
        have h2 := ih LoadingState.building
        simpa [run, step, Alternating, inFlight] using h2

end Orchestrator

/-- C7: while a build or evaluate phase of the orchestrator is in flight,
invoking the evaluation action again is a no-op — the click changes nothing
and starts nothing, and the decision is made by inspecting the current
loading state (`isEvaluateDisabled`), not by a lock; consequently, in any
event sequence starting idle the orchestrator's build/evaluate flights
strictly alternate and never overlap. -/
theorem evaluate_click_noop_while_in_flight (cfg : Orchestrator.Config)
    (l : LoadingState) (h : l = .building ∨ l = .evaluating) :
    Orchestrator.step cfg l .click = (l, []) ∧
    isEvaluateDisabled cfg.canEvaluate l = true ∧
    ∀ es : List Orchestrator.UiEvent,
      Orchestrator.Alternating false (Orchestrator.run cfg .idle es).2 := by
  have hdis : isEvaluateDisabled cfg.canEvaluate l = true := by
    rcases h with rfl | rfl <;> simp [isEvaluateDisabled]
  refine ⟨?_, hdis, ?_⟩
  · simp [Orchestrator.step, hdis]
  · intro es
    have := Orchestrator.run_alternating cfg es .idle
    simpa [Orchestrator.inFlight] using this

/-- Witness for C7 with a build in flight. -/
theorem evaluate_click_noop_witness :
    Orchestrator.step { canEvaluate := true, fusionPresent := false }
        LoadingState.building .click = (LoadingState.building, []) ∧
    isEvaluateDisabled true LoadingState.building = true ∧
    ∀ es : List Orchestrator.UiEvent,
      Orchestrator.Alternating false
        (Orchestrator.run { canEvaluate := true, fusionPresent := false }
          .idle es).2 :=
  evaluate_click_noop_while_in_flight
    { canEvaluate := true, fusionPresent := false }
    LoadingState.building (Or.inl rfl)
